import Mathlib

/-!
# Verification of the raiderio Go client (query validation, request
# construction, response normalization, error classification)

Shallow embedding of the `raiderio` package.  Go slices become `List`,
Go `nil`-able pointers become `Option`, Go `error` results become
`Option RaiderioError` (`none` = success, mirroring `nil`) or
`Except RaiderioError α`, Go `string` becomes `String`, Go `int` and
`int64` become `Int` (no overflow is relevant at the values involved),
and `time.Duration` is its underlying nanosecond count as `Int`.
`float32` fields (item levels) are carried as `Int`; no property here
depends on them.  Timestamps (`time.Time`) are carried as opaque strings.
-/

namespace Raiderio

/-! ## String containment, modelling Go `strings.Contains` -/

/-- `charsLead pat l` is true when `pat` occurs at the head of `l`
(`pat` is an initial segment of `l`). -/
def charsLead : List Char → List Char → Bool
  | [], _ => true
  | _ :: _, [] => false
  | a :: as, b :: bs => a == b && charsLead as bs

/-- `charsContain pat l` is true when `pat` occurs contiguously anywhere
in `l`; models Go `strings.Contains` on the underlying rune lists. -/
def charsContain (pat : List Char) : List Char → Bool
  | [] => pat.isEmpty
  | c :: cs => charsLead pat (c :: cs) || charsContain pat cs

/-- Go `strings.Contains s pat`. -/
def stringContains (s pat : String) : Bool :=
  charsContain pat.toList s.toList

/-! ## Errors (errors.go: the package-level `Err*` variables).

Each Go sentinel error value becomes one constructor; Go compares these
by identity, which constructor equality models exactly.  `ErrInvalidBoss`
is referenced from `raid.go` and its message "invalid boss" appears in
the tests. -/

inductive RaiderioError where
  | ErrInvalidRegion
  | ErrInvalidRealm
  | ErrInvalidCharName
  | ErrInvalidGuildName
  | ErrInvalidRaidName
  | ErrInvalidBoss
  | ErrInvalidRaidDiff
  | ErrInvalidRaid
  | ErrFieldMissing
  | ErrCharacterNotFound
  | ErrGuildNotFound
  | ErrUnsupportedExpac
  | ErrLimitOutOfBounds
  | ErrPageOutOfBounds
  | ErrUnexpected
  deriving DecidableEq, Repr

open RaiderioError

/-! ## Regions (package `regions`)

The `regions` package is not under `src/`; only its shape is needed:
a `Region` is a struct with a `Slug` string field, used through
`*regions.Region` pointers (here `Option Region`). -/

structure Region where
  Slug : String
  deriving DecidableEq, Repr

/-- Modelled from the spec: the `regions` package source is missing;
spec §3 describes Region as "a closed enumeration token with a display
slug (e.g. \"us\", \"eu\", \"world\")" — the three enumerated values the
tests exercise (`regions.US`, `regions.EU`, `regions.WORLD`). -/
def enumeratedRegionSlugs : List String := ["us", "eu", "world"]

/-! ## Raid difficulties (raid.go) -/

/-- `RaidDifficulty` is a string type in the source. -/
abbrev RaidDifficulty := String

def NORMAL_RAID : RaidDifficulty := "normal"
def HEROIC_RAID : RaidDifficulty := "heroic"
def MYTHIC_RAID : RaidDifficulty := "mythic"

/-- raid.go `raidDifficltyValid` (sic): true exactly on the three
enumerated difficulties. -/
def raidDifficltyValid (d : RaidDifficulty) : Bool :=
  if d = NORMAL_RAID ∨ d = HEROIC_RAID ∨ d = MYTHIC_RAID then true else false

/-! ## Query types and validators (raid.go) -/

structure RaidQuery where
  Slug : String
  Difficulty : RaidDifficulty
  Region : Option Region
  Realm : String
  Limit : Int
  Page : Int
  deriving DecidableEq, Repr

structure GuildBossKillQuery where
  Region : Option Region
  Realm : String
  GuildName : String
  RaidSlug : String
  BossSlug : String
  Difficulty : RaidDifficulty
  deriving DecidableEq, Repr

structure BossRankingsQuery where
  RaidSlug : String
  BossSlug : String
  Difficulty : RaidDifficulty
  Region : Option Region
  Realm : String
  deriving DecidableEq, Repr

structure HallOfFameQuery where
  RaidSlug : String
  Difficulty : RaidDifficulty
  Region : Option Region
  deriving DecidableEq, Repr

structure RaidProgressionQuery where
  RaidSlug : String
  Difficulty : RaidDifficulty
  Region : Option Region
  deriving DecidableEq, Repr

/-- raid.go `validateGuildBossKillQuery`: checks, in source order,
Region nil, empty Realm, empty GuildName, empty RaidSlug, empty
BossSlug, then the difficulty rule.  `none` models the Go `nil` error. -/
def validateGuildBossKillQuery (q : GuildBossKillQuery) : Option RaiderioError :=
  if q.Region = none then some ErrInvalidRegion
  else if q.Realm = "" then some ErrInvalidRealm
  else if q.GuildName = "" then some ErrInvalidGuildName
  else if q.RaidSlug = "" then some ErrInvalidRaidName
  else if q.BossSlug = "" then some ErrInvalidBoss
  else if q.Difficulty = "" ∨ raidDifficltyValid q.Difficulty = false then
    some ErrInvalidRaidDiff
  else none

/-- raid.go `validateRaidRankingsQuery`: checks, in source order, empty
Slug, the difficulty rule, Region nil, negative Limit, negative Page. -/
def validateRaidRankingsQuery (rq : RaidQuery) : Option RaiderioError :=
  if rq.Slug = "" then some ErrInvalidRaidName
  else if rq.Difficulty = "" ∨ raidDifficltyValid rq.Difficulty = false then
    some ErrInvalidRaidDiff
  else if rq.Region = none then some ErrInvalidRegion
  else if rq.Limit < 0 then some ErrLimitOutOfBounds
  else if rq.Page < 0 then some ErrPageOutOfBounds
  else none

/-- raid.go `validateBossRankingsQuery`. -/
def validateBossRankingsQuery (q : BossRankingsQuery) : Option RaiderioError :=
  if q.RaidSlug = "" then some ErrInvalidRaidName
  else if q.BossSlug = "" then some ErrInvalidBoss
  else if q.Difficulty = "" ∨ raidDifficltyValid q.Difficulty = false then
    some ErrInvalidRaidDiff
  else if q.Region = none then some ErrInvalidRegion
  else none

/-- raid.go `validateHallOfFameQuery`. -/
def validateHallOfFameQuery (q : HallOfFameQuery) : Option RaiderioError :=
  if q.RaidSlug = "" then some ErrInvalidRaidName
  else if q.Difficulty = "" ∨ raidDifficltyValid q.Difficulty = false then
    some ErrInvalidRaidDiff
  else if q.Region = none then some ErrInvalidRegion
  else none

/-- raid.go `validateRaidProgressionQuery`. -/
def validateRaidProgressionQuery (q : RaidProgressionQuery) : Option RaiderioError :=
  if q.RaidSlug = "" then some ErrInvalidRaidName
  else if q.Difficulty = "" ∨ raidDifficltyValid q.Difficulty = false then
    some ErrInvalidRaidDiff
  else if q.Region = none then some ErrInvalidRegion
  else none

/-! ## Error classifier (errors.go: `wrapAPIError`; request.go: the
non-200 branch of `getAPIResponse`) -/

/-- request.go / part_003 `apiErrorResponse`: the JSON error envelope the
upstream service returns with a non-success status. -/
structure apiErrorResponse where
  StatusCode : Int
  Err : String
  Message : String
  deriving DecidableEq, Repr

/-- The Go zero value of `apiErrorResponse` (what `var responseBody
apiErrorResponse` holds when `json.Unmarshal` fails). -/
def apiErrorResponseZero : apiErrorResponse := ⟨0, "", ""⟩

/-- errors.go `wrapAPIError`: turns upstream error envelopes into the
package's sentinel errors by substring-matching the message, in source
order. -/
def wrapAPIError (responseBody : apiErrorResponse) : RaiderioError :=
  if stringContains responseBody.Message "Failed to find region" then
    ErrInvalidRegion
  else if stringContains responseBody.Message "Failed to find realm" then
    ErrInvalidRealm
  else if stringContains responseBody.Message "Could not find requested character" then
    ErrCharacterNotFound
  else if stringContains responseBody.Message "Could not find requested guild" then
    ErrGuildNotFound
  else if stringContains responseBody.Message "Requested unsupported expansion_id" then
    ErrUnsupportedExpac
  else if stringContains responseBody.Message "Could not find requested raid" then
    ErrInvalidRaid
  else ErrUnexpected

/-- request.go `getAPIResponse`, non-200 branch: the body is unmarshalled
into a zero-initialized envelope and classified; when unmarshalling fails
(`none` here) the still-zero envelope is classified through the very same
call, so both branches run `wrapAPIError`. -/
def classifyNon200 (parsed : Option apiErrorResponse) : RaiderioError :=
  match parsed with
  | none => wrapAPIError apiErrorResponseZero
  | some responseBody => wrapAPIError responseBody

/-- The spec's formulation of the classifier (§4.4): a fixed ordered
table of (substring pattern, error kind) pairs, evaluated top-to-bottom,
first match wins, default `ErrUnexpected`.  Used to compare the code's
nested-if classifier against the spec's rule table. -/
def apiErrorPatternTable : List (String × RaiderioError) :=
  [("Failed to find region", ErrInvalidRegion),
   ("Failed to find realm", ErrInvalidRealm),
   ("Could not find requested character", ErrCharacterNotFound),
   ("Could not find requested guild", ErrGuildNotFound),
   ("Requested unsupported expansion_id", ErrUnsupportedExpac),
   ("Could not find requested raid", ErrInvalidRaid)]

/-- Spec-side classifier over the pattern table: kind of the first
pattern contained in the message, else `ErrUnexpected`. -/
def classifyByTable (message : String) : RaiderioError :=
  match apiErrorPatternTable.find? (fun p => stringContains message p.1) with
  | some p => p.2
  | none => ErrUnexpected

/-! ## Raid static data and lookup (raid.go) -/

/-- The per-region timestamp block of raid.go `Raid.Starts` / `Raid.Ends`. -/
structure RegionStamps where
  Us : String
  Eu : String
  Tw : String
  Kr : String
  Cn : String
  deriving DecidableEq, Repr

structure Encounter where
  Id : Int
  Slug : String
  Name : String
  deriving DecidableEq, Repr

structure Raid where
  Id : Int
  Slug : String
  Name : String
  ShortName : String
  Icon : String
  Starts : RegionStamps
  Ends : RegionStamps
  Encounters : List Encounter
  deriving DecidableEq, Repr

structure Raids where
  Raids : List Raid
  deriving DecidableEq, Repr

/-- raid.go `(*Raids).GetRaidBySlug`: linear scan over the collection in
order, returning the first raid whose slug matches (the Go code returns
a pointer to the loop's copy of the element), else `ErrInvalidRaid`. -/
def getRaidBySlugList (rs : List Raid) (slug : String) : Except RaiderioError Raid :=
  match rs with
  | [] => .error ErrInvalidRaid
  | raid :: rest =>
    if raid.Slug = slug then .ok raid else getRaidBySlugList rest slug

def GetRaidBySlug (r : Raids) (slug : String) : Except RaiderioError Raid :=
  getRaidBySlugList r.Raids slug

/-! ## Guild boss kill: wire shapes and normalization (raid.go)

`time.Duration` is an `int64` nanosecond count; `time.Millisecond` and
`time.Second` are the constants below.  Timestamps stay opaque strings;
`float32` item levels are carried as `Int` (no claim depends on them). -/

def timeMillisecond : Int := 1000000
def timeSecond : Int := 1000000000

/-- Reduction of an integer into Go's `int64` range
`[-2^63, 2^63)`, as Go's wrapping (two's-complement) arithmetic
produces: `time.Duration(x) * time.Millisecond` computes this of the
mathematical product. -/
def int64Wrap (x : Int) : Int := (x + 2 ^ 63) % 2 ^ 64 - 2 ^ 63

/-- `x` fits Go's `int64`. -/
def fitsInt64 (x : Int) : Prop := -(2 ^ 63) ≤ x ∧ x < 2 ^ 63

instance (x : Int) : Decidable (fitsInt64 x) := by
  unfold fitsInt64
  infer_instance

/-- A nested single-leaf wrapper on the wire, e.g. `class: {slug: ...}`. -/
structure SlugWrapper where
  Slug : String
  deriving DecidableEq, Repr

/-- raid.go `bossKillCharacter.Character.TalentLoadout`. -/
structure wireTalentLoadout where
  LoadoutSpecID : Int
  LoadoutText : String
  deriving DecidableEq, Repr

/-- raid.go `bossKillCharacter.Character`: the deeply nested wire shape
of one roster member. -/
structure wireCharacter where
  Name : String
  Class : SlugWrapper
  Spec : SlugWrapper
  TalentLoadout : wireTalentLoadout
  Realm : SlugWrapper
  Region : SlugWrapper
  ItemLevelEquipped : Int
  deriving DecidableEq, Repr

/-- raid.go `bossKillCharacter`. -/
structure bossKillCharacter where
  Character : wireCharacter
  deriving DecidableEq, Repr

/-- raid.go `bossKillResp.Kill`: kill metadata as it appears on the
wire, with the duration as a millisecond integer. -/
structure wireKill where
  PulledAt : String
  DefeatedAt : String
  DurationMs : Int
  IsSuccess : Bool
  ItemLevelEquippedAvg : Int
  ItemLevelEquippedMax : Int
  ItemLevelEquippedMin : Int
  deriving DecidableEq, Repr

/-- raid.go `bossKillResp`: the parsed wire shape of a boss-kill body. -/
structure bossKillResp where
  Kill : wireKill
  Roster : List bossKillCharacter
  deriving DecidableEq, Repr

/-- character.go is not under src/; spec §3 gives Character as "name,
class slug, spec slug, realm slug, region slug, equipped gear summary,
talent loadout text", exactly the fields raid.go's roster normalization
assigns.  `Gear` and `TalentLoadout` are the embedded value objects. -/
structure Gear where
  ItemLevelEquipped : Int
  deriving DecidableEq, Repr

structure TalentLoadout where
  LoadoutText : String
  deriving DecidableEq, Repr

structure Character where
  Name : String
  Class : String
  Spec : String
  Realm : String
  Region : String
  TalentLoadout : TalentLoadout
  Gear : Gear
  deriving DecidableEq, Repr

/-- raid.go `BossKillData`: normalized kill metadata; `Duration` is a
`time.Duration` (nanoseconds). -/
structure BossKillData where
  PulledAt : String
  DefeatedAt : String
  Duration : Int
  IsSuccess : Bool
  ItemLevelEquippedAvg : Int
  ItemLevelEquippedMax : Int
  ItemLevelEquippedMin : Int
  deriving DecidableEq, Repr

/-- raid.go `BossKill`. -/
structure BossKill where
  Kill : BossKillData
  Roster : List Character
  deriving DecidableEq, Repr

/-- raid.go `unmarshalBossKillRoster`: flattens each nested roster entry
into one `Character`, appending in wire order. -/
def unmarshalBossKillRoster (k : bossKillResp) : List Character :=
  k.Roster.map (fun c =>
    { Name := c.Character.Name
      Class := c.Character.Class.Slug
      Spec := c.Character.Spec.Slug
      Realm := c.Character.Realm.Slug
      Region := c.Character.Region.Slug
      TalentLoadout := { LoadoutText := c.Character.TalentLoadout.LoadoutText }
      Gear := { ItemLevelEquipped := c.Character.ItemLevelEquipped } })

/-- raid.go `unmarshalGuildBossKill`, after the `json.Unmarshal` step
(callers reach this point only when the body parsed; a JSON number
outside int64 fails to unmarshal into the `int` field, so a parsed
`DurationMs` always fits int64): builds the normalized `BossKill`,
computing `Duration` as `time.Duration(DurationMs) * time.Millisecond`
— a multiplication in Go's wrapping `int64`, here `int64Wrap` of the
mathematical product. -/
def unmarshalGuildBossKill (resp : bossKillResp) : BossKill :=
  { Kill :=
      { PulledAt := resp.Kill.PulledAt
        DefeatedAt := resp.Kill.DefeatedAt
        Duration := int64Wrap (resp.Kill.DurationMs * timeMillisecond)
        IsSuccess := resp.Kill.IsSuccess
        ItemLevelEquippedAvg := resp.Kill.ItemLevelEquippedAvg
        ItemLevelEquippedMax := resp.Kill.ItemLevelEquippedMax
        ItemLevelEquippedMin := resp.Kill.ItemLevelEquippedMin }
    Roster := unmarshalBossKillRoster resp }

/-! ## Request URLs (client.go, request.go)

A request URL is modelled in parsed form: the part before the query
string, plus the query parameters as key/value pairs (what
`url.Values` holds).  `url.Values.Encode` serializes this map after the
single "?", so well-formedness of the final string is structural. -/

structure UrlModel where
  Path : String
  Query : List (String × String)
  deriving DecidableEq, Repr

/-- Lookup of a query parameter (first binding of the key). -/
def getQueryParam (ps : List (String × String)) (k : String) : Option String :=
  (ps.find? (fun p => p.1 = k)).map Prod.snd

/-- `url.Values.Set k v`: replaces any bindings of `k` with the single
binding `(k, v)`, adding it when absent. -/
def setQueryParam (ps : List (String × String)) (k v : String) :
    List (String × String) :=
  ps.filter (fun p => p.1 ≠ k) ++ [(k, v)]

/-- request.go `getAPIResponse`, access-key step: when the client's
`AccessKey` is non-empty, the built URL is parsed, `access_key` is set
on its query values, and the URL is re-encoded; otherwise the URL is
used as built. -/
def applyAccessKey (accessKey : String) (u : UrlModel) : UrlModel :=
  if accessKey = "" then u
  else { Path := u.Path, Query := setQueryParam u.Query "access_key" accessKey }

/-- client.go `GetRaidRankings`, parameter building (runs only after
validation, so `Region` is non-nil there; the `getD` default is never
reached from validated queries): `raid`, `difficulty`, `region` always;
`realm` when non-empty; `limit` and `page` when non-zero. -/
def buildRaidRankingsParams (rq : RaidQuery) : List (String × String) :=
  [("raid", rq.Slug),
   ("difficulty", rq.Difficulty),
   ("region", ((rq.Region.map Region.Slug).getD ""))]
  ++ (if rq.Realm = "" then [] else [("realm", rq.Realm)])
  ++ (if rq.Limit = 0 then [] else [("limit", toString rq.Limit)])
  ++ (if rq.Page = 0 then [] else [("page", toString rq.Page)])

/-- client.go `GetRaids`, parameter building: unconditional — there is
no validation of the expansion argument, every integer is serialized
into `expansion_id` and the request proceeds to the network. -/
def buildRaidsParams (e : Int) : List (String × String) :=
  [("expansion_id", toString e)]

/-! ## Guild raid-ranking lookup -/

/-- raid.go `GuildRaidRanking`'s per-difficulty rank triple. -/
structure RankTriple where
  World : Int
  Region : Int
  Realm : Int
  deriving DecidableEq, Repr

/-- raid.go `GuildRaidRanking`. -/
structure GuildRaidRanking where
  RaidSlug : String
  Normal : RankTriple
  Heroic : RankTriple
  Mythic : RankTriple
  deriving DecidableEq, Repr

/-- Modelled from the spec: guild.go (the `Guild` type and
`GetGuildRaidRankBySlug`) is not under src/.  Spec §3 gives Guild an
"optional raid-ranking table keyed by raid identifier"; §4.3's
missing-field policy distinguishes "decoded without raid-rankings
requested" (table absent, `none`) from an empty or populated table
(`some`).  Only the fields the lookup claims touch are carried. -/
structure Guild where
  Name : String
  RaidRankings : Option (List (String × GuildRaidRanking))
  deriving DecidableEq, Repr

/-- Modelled from the spec: guild.go's `GetGuildRaidRankBySlug` (§4.5):
when the guild was decoded without raid-rankings requested, the
"expected field missing" kind; when the table exists, direct lookup by
raid slug, with a distinct not-ranked-for-that-raid outcome — the tests
pin its message to "invalid raid", i.e. `ErrInvalidRaid` — for an absent
slug. -/
def GetGuildRaidRankBySlug (g : Guild) (slug : String) :
    Except RaiderioError GuildRaidRanking :=
  match g.RaidRankings with
  | none => .error ErrFieldMissing
  | some table =>
    match table.find? (fun p => p.1 = slug) with
    | some p => .ok p.2
    | none => .error ErrInvalidRaid

/-! ## Spec-side rule tables (spec §4.1)

The spec describes each validator as an ordered rule table where "the
first failing rule wins".  These definitions state that formulation so
the code's nested-if validators can be compared against it. -/

/-- First failing rule of an ordered rule table: the error of the first
rule whose failure predicate holds, `none` when every rule passes. -/
def firstFailingRule {α : Type} (rules : List ((α → Bool) × RaiderioError))
    (q : α) : Option RaiderioError :=
  (rules.find? (fun r => r.1 q)).map Prod.snd

/-- The failure predicate of the shared difficulty rule as the source
writes it: empty or not one of the three enumerated difficulties. -/
def difficultyRuleFails (d : RaidDifficulty) : Bool :=
  decide (d = "" ∨ raidDifficltyValid d = false)

/-- The ordered rule table of `validateGuildBossKillQuery` as the code
applies it: Region, Realm, GuildName, RaidSlug, BossSlug, Difficulty. -/
def guildBossKillRules : List ((GuildBossKillQuery → Bool) × RaiderioError) :=
  [(fun q => decide (q.Region = none), ErrInvalidRegion),
   (fun q => decide (q.Realm = ""), ErrInvalidRealm),
   (fun q => decide (q.GuildName = ""), ErrInvalidGuildName),
   (fun q => decide (q.RaidSlug = ""), ErrInvalidRaidName),
   (fun q => decide (q.BossSlug = ""), ErrInvalidBoss),
   (fun q => difficultyRuleFails q.Difficulty, ErrInvalidRaidDiff)]

/-- The ordered rule table of `validateRaidRankingsQuery` as the code
applies it: Slug, Difficulty, Region, Limit, Page. -/
def raidRankingsRules : List ((RaidQuery → Bool) × RaiderioError) :=
  [(fun q => decide (q.Slug = ""), ErrInvalidRaidName),
   (fun q => difficultyRuleFails q.Difficulty, ErrInvalidRaidDiff),
   (fun q => decide (q.Region = none), ErrInvalidRegion),
   (fun q => decide (q.Limit < 0), ErrLimitOutOfBounds),
   (fun q => decide (q.Page < 0), ErrPageOutOfBounds)]

/-! ## Concrete inputs used by the per-claim witnesses and
counterexamples -/

/-- A parsed boss-kill body with `durationMs = 125000` and a two-member
roster, shaped like the vault-of-the-incarnates fixture the tests hit. -/
def bossKillRespFixture : bossKillResp :=
  { Kill :=
      { PulledAt := "2022-12-22T02:40:58.000Z"
        DefeatedAt := "2022-12-22T02:43:03.000Z"
        DurationMs := 125000
        IsSuccess := true
        ItemLevelEquippedAvg := 447
        ItemLevelEquippedMax := 450
        ItemLevelEquippedMin := 443 }
    Roster :=
      [{ Character :=
           { Name := "Drbananaphd"
             Class := { Slug := "druid" }
             Spec := { Slug := "restoration" }
             TalentLoadout := { LoadoutSpecID := 105, LoadoutText := "BoGA..." }
             Realm := { Slug := "illidan" }
             Region := { Slug := "us" }
             ItemLevelEquipped := 447 } },
       { Character :=
           { Name := "Secondmember"
             Class := { Slug := "mage" }
             Spec := { Slug := "frost" }
             TalentLoadout := { LoadoutSpecID := 64, LoadoutText := "AoGB..." }
             Realm := { Slug := "area-52" }
             Region := { Slug := "us" }
             ItemLevelEquipped := 445 } }] }

/-- A parseable boss-kill body whose `durationMs = 10^13` fits Go's
`int64` (so `json.Unmarshal` accepts it) but whose product with
`time.Millisecond` exceeds `int64` and wraps. -/
def overflowBossKillResp : bossKillResp :=
  { Kill :=
      { PulledAt := "2022-12-22T02:40:58.000Z"
        DefeatedAt := "2022-12-22T02:43:03.000Z"
        DurationMs := 10000000000000
        IsSuccess := true
        ItemLevelEquippedAvg := 447
        ItemLevelEquippedMax := 450
        ItemLevelEquippedMin := 443 }
    Roster := [] }

/-- A boss-kill query whose `Region` pointer holds the non-canonical
slug "badregion" but whose every other field is valid. -/
def badRegionQuery : GuildBossKillQuery :=
  { Region := some { Slug := "badregion" }
    Realm := "illidan"
    GuildName := "warpath"
    RaidSlug := "vault-of-the-incarnates"
    BossSlug := "terros"
    Difficulty := "mythic" }

/-- A fully valid boss-kill query. -/
def validBossKillQuery : GuildBossKillQuery :=
  { Region := some { Slug := "us" }
    Realm := "illidan"
    GuildName := "warpath"
    RaidSlug := "vault-of-the-incarnates"
    BossSlug := "terros"
    Difficulty := "mythic" }

/-- A fully valid raid-rankings query with zero Limit and Page. -/
def validRankingsQuery : RaidQuery :=
  { Slug := "aberrus-the-shadowed-crucible"
    Difficulty := "mythic"
    Region := some { Slug := "world" }
    Realm := ""
    Limit := 0
    Page := 0 }

/-- The same query with an explicit limit and page. -/
def pagedRankingsQuery : RaidQuery :=
  { Slug := "aberrus-the-shadowed-crucible"
    Difficulty := "mythic"
    Region := some { Slug := "us" }
    Realm := "illidan"
    Limit := 40
    Page := 2 }

/-- A boss-kill query with both an empty guild name and a nil region. -/
def emptyGuildNilRegionQuery : GuildBossKillQuery :=
  { Region := none
    Realm := "illidan"
    GuildName := ""
    RaidSlug := "vault-of-the-incarnates"
    BossSlug := "terros"
    Difficulty := "mythic" }

/-- A rankings query with an empty slug and a negative limit. -/
def emptySlugNegativeLimitQuery : RaidQuery :=
  { Slug := ""
    Difficulty := "mythic"
    Region := some { Slug := "us" }
    Realm := ""
    Limit := -20
    Page := 0 }

/-- A rankings query with an empty slug and an invalid difficulty. -/
def emptySlugBadDifficultyQuery : RaidQuery :=
  { Slug := ""
    Difficulty := "invalid-difficulty"
    Region := some { Slug := "us" }
    Realm := "illidan"
    Limit := 0
    Page := 0 }

/-- A rankings query that is valid except for its difficulty. -/
def badDifficultyRankingsQuery : RaidQuery :=
  { Slug := "aberrus-the-shadowed-crucible"
    Difficulty := "invalid-difficulty"
    Region := some { Slug := "us" }
    Realm := "illidan"
    Limit := 0
    Page := 0 }

/-- A boss-kill query that is valid except for its (empty) difficulty. -/
def badDifficultyBossKillQuery : GuildBossKillQuery :=
  { Region := some { Slug := "us" }
    Realm := "illidan"
    GuildName := "warpath"
    RaidSlug := "vault-of-the-incarnates"
    BossSlug := "terros"
    Difficulty := "" }

/-- A boss-rankings query that is valid except for its difficulty. -/
def badDifficultyBossRankingsQuery : BossRankingsQuery :=
  { RaidSlug := "nerubar-palace"
    BossSlug := "queen-ansurek"
    Difficulty := "LFR"
    Region := some { Slug := "us" }
    Realm := "" }

/-- A hall-of-fame query that is valid except for its difficulty. -/
def badDifficultyHofQuery : HallOfFameQuery :=
  { RaidSlug := "nerubar-palace"
    Difficulty := "heroic25"
    Region := some { Slug := "us" } }

/-- A raid-progression query that is valid except for its difficulty. -/
def badDifficultyProgressionQuery : RaidProgressionQuery :=
  { RaidSlug := "nerubar-palace"
    Difficulty := "Mythic"
    Region := some { Slug := "us" } }

/-- A two-raid static-data collection including a duplicate slug, to
exercise first-match lookup. -/
def raidsFixture : Raids :=
  { Raids :=
      [{ Id := 1, Slug := "nerubar-palace", Name := "Nerub-ar Palace",
         ShortName := "NP", Icon := "np",
         Starts := ⟨"a", "b", "c", "d", "e"⟩, Ends := ⟨"f", "g", "h", "i", "j"⟩,
         Encounters := [{ Id := 1, Slug := "ulgrax", Name := "Ulgrax" }] },
       { Id := 2, Slug := "nerubar-palace", Name := "Duplicate Slug Raid",
         ShortName := "DS", Icon := "ds",
         Starts := ⟨"a", "b", "c", "d", "e"⟩, Ends := ⟨"f", "g", "h", "i", "j"⟩,
         Encounters := [] },
       { Id := 3, Slug := "blackrock-depths", Name := "Blackrock Depths",
         ShortName := "BRD", Icon := "brd",
         Starts := ⟨"a", "b", "c", "d", "e"⟩, Ends := ⟨"f", "g", "h", "i", "j"⟩,
         Encounters := [] }] }

/-- A built character-profile request URL, as in the access-key tests. -/
def characterProfileUrl : UrlModel :=
  { Path := "https://raider.io/api/v1/characters/profile"
    Query := [("region", "us"), ("realm", "illidan"), ("name", "test")] }

/-- The world-92 mythic ranking entry the guild tests expect for
nerubar-palace. -/
def nerubarRanking : GuildRaidRanking :=
  { RaidSlug := "nerubar-palace"
    Normal := { World := 3000, Region := 700, Realm := 20 }
    Heroic := { World := 500, Region := 120, Realm := 8 }
    Mythic := { World := 92, Region := 30, Realm := 2 } }

/-- A guild decoded with raid-rankings requested. -/
def guildWithRankings : Guild :=
  { Name := "warpath"
    RaidRankings := some [("nerubar-palace", nerubarRanking)] }

/-- The same guild decoded without raid-rankings requested. -/
def guildWithoutRankings : Guild :=
  { Name := "warpath", RaidRankings := none }

/-! # Theorems -/

/-- `int64Wrap` is the identity on values already in the int64 range. -/
theorem int64Wrap_eq_of_fits (x : Int) (h : fitsInt64 x) : int64Wrap x = x := by
  obtain ⟨h1, h2⟩ := h
  unfold int64Wrap
  have e1 : (2 : Int) ^ 63 = 9223372036854775808 := by norm_num
  have e2 : (2 : Int) ^ 64 = 18446744073709551616 := by norm_num
  rw [e1, e2]
  rw [show -(2 : Int) ^ 63 = -9223372036854775808 by norm_num] at h1
  rw [e1] at h2
  omega

/-- C1 counterexample: the body with `durationMs = 10^13` parses (the
value fits Go's int64), yet the decoded duration is not `durationMs`
milliseconds — the int64 product `10^13 * 10^6` wraps negative —
refuting the exact-duration claim for every parseable body. -/
theorem unmarshalGuildBossKill_duration_wraps_int64 :
    fitsInt64 overflowBossKillResp.Kill.DurationMs
    ∧ (unmarshalGuildBossKill overflowBossKillResp).Kill.Duration
        ≠ overflowBossKillResp.Kill.DurationMs * timeMillisecond
    ∧ (unmarshalGuildBossKill overflowBossKillResp).Kill.Duration < 0 := by
  refine ⟨by decide, by decide, by decide⟩

/-- C1 amended: for every guild boss-kill body that parses, the decoded
`Kill.Duration` is the int64-wrapped product `durationMs *
time.Millisecond`; whenever that product fits int64 — every realistic
fight length, `|durationMs| ≤ 2^63/10^6` — it equals exactly
`durationMs` milliseconds (`durationMs = 125000` gives exactly 125
seconds), and the roster has the wire roster's length, in order, the
i-th entry's `Name`, `Class`, `Spec`, `Realm` and `Region` being the
projections `character.name`, `character.class.slug`,
`character.spec.slug`, `character.realm.slug` and
`character.region.slug` of the i-th wire entry. -/
theorem unmarshalGuildBossKill_duration_and_roster (resp : bossKillResp) :
    (unmarshalGuildBossKill resp).Kill.Duration
      = int64Wrap (resp.Kill.DurationMs * timeMillisecond)
    ∧ (fitsInt64 (resp.Kill.DurationMs * timeMillisecond) →
        (unmarshalGuildBossKill resp).Kill.Duration
          = resp.Kill.DurationMs * timeMillisecond)
    ∧ (resp.Kill.DurationMs = 125000 →
        (unmarshalGuildBossKill resp).Kill.Duration = 125 * timeSecond)
    ∧ (unmarshalGuildBossKill resp).Roster.length = resp.Roster.length
    ∧ ∀ (i : Nat) (hw : i < resp.Roster.length)
        (hd : i < (unmarshalGuildBossKill resp).Roster.length),
        ((unmarshalGuildBossKill resp).Roster.get ⟨i, hd⟩).Name
            = (resp.Roster.get ⟨i, hw⟩).Character.Name
        ∧ ((unmarshalGuildBossKill resp).Roster.get ⟨i, hd⟩).Class
            = (resp.Roster.get ⟨i, hw⟩).Character.Class.Slug
        ∧ ((unmarshalGuildBossKill resp).Roster.get ⟨i, hd⟩).Spec
            = (resp.Roster.get ⟨i, hw⟩).Character.Spec.Slug
        ∧ ((unmarshalGuildBossKill resp).Roster.get ⟨i, hd⟩).Realm
            = (resp.Roster.get ⟨i, hw⟩).Character.Realm.Slug
        ∧ ((unmarshalGuildBossKill resp).Roster.get ⟨i, hd⟩).Region
            = (resp.Roster.get ⟨i, hw⟩).Character.Region.Slug := by
  refine ⟨rfl, ?_, ?_, ?_, ?_⟩
  · intro hfit
    exact int64Wrap_eq_of_fits _ hfit
  · intro h
    simp only [unmarshalGuildBossKill, h]
    decide
  · simp [unmarshalGuildBossKill, unmarshalBossKillRoster]
  · intro i hw hd
    simp [unmarshalGuildBossKill, unmarshalBossKillRoster]

/-- C1 witness: the fixture with `durationMs = 125000` decodes to a
duration of exactly 125 seconds, a two-member roster, and correctly
projected slugs for the first member. -/
theorem unmarshalGuildBossKill_duration_and_roster_witness :
    (unmarshalGuildBossKill bossKillRespFixture).Kill.Duration = 125 * timeSecond
    ∧ (unmarshalGuildBossKill bossKillRespFixture).Roster.length = 2
    ∧ ((unmarshalGuildBossKill bossKillRespFixture).Roster.get
        ⟨0, by decide⟩).Class = "druid" := by
  obtain ⟨-, -, hdur, hlen, hproj⟩ :=
    unmarshalGuildBossKill_duration_and_roster bossKillRespFixture
  refine ⟨hdur rfl, by rw [hlen]; rfl, ?_⟩
  have h := (hproj 0 (by decide) (by decide)).2.1
  rw [h]; rfl

/-- C6: the classifier is a total function of the envelope alone — it
never inspects the status code — and it equals the spec's ordered
substring table evaluated top-to-bottom with first match winning; a
message containing "Failed to find realm" (matching no earlier pattern)
classifies as the invalid-realm error; and a non-success response whose
body failed to parse is classified against the zero-value envelope,
yielding the generic unexpected-error kind. -/
theorem wrapAPIError_is_table_classifier :
    (∀ r : apiErrorResponse, wrapAPIError r = classifyByTable r.Message)
    ∧ (∀ (s₁ s₂ : Int) (e₁ e₂ m : String),
        wrapAPIError ⟨s₁, e₁, m⟩ = wrapAPIError ⟨s₂, e₂, m⟩)
    ∧ wrapAPIError ⟨404, "Not Found", "Failed to find realm invalidrealm"⟩
        = RaiderioError.ErrInvalidRealm
    ∧ classifyNon200 none = wrapAPIError apiErrorResponseZero
    ∧ classifyNon200 none = RaiderioError.ErrUnexpected := by
  refine ⟨?_, ?_, by decide, rfl, by decide⟩
  · intro r
    simp only [wrapAPIError, classifyByTable, apiErrorPatternTable, List.find?]
    split_ifs with h1 h2 h3 h4 h5 h6 <;> simp_all
  · intro s₁ s₂ e₁ e₂ m
    rfl

/-- C7: `GetRaidBySlug` is a linear scan in collection order — it
returns the first raid whose slug matches, with no error, and returns
`ErrInvalidRaid` exactly when no raid in the collection carries the
slug. -/
theorem GetRaidBySlug_first_match (r : Raids) (slug : String) :
    GetRaidBySlug r slug
      = (match r.Raids.find? (fun raid => raid.Slug == slug) with
         | some raid => Except.ok raid
         | none => Except.error RaiderioError.ErrInvalidRaid)
    ∧ (GetRaidBySlug r slug = Except.error RaiderioError.ErrInvalidRaid
        ↔ ∀ raid ∈ r.Raids, raid.Slug ≠ slug) := by
  have main : ∀ rs : List Raid,
      getRaidBySlugList rs slug
        = (match rs.find? (fun raid => raid.Slug == slug) with
           | some raid => Except.ok raid
           | none => Except.error RaiderioError.ErrInvalidRaid) := by
    intro rs
    induction rs with
    | nil => rfl
    | cons raid rest ih =>
      by_cases h : raid.Slug = slug
      · simp [getRaidBySlugList, List.find?_cons, h]
      · simp only [getRaidBySlugList, List.find?_cons]
        rw [if_neg h]
        have hb : (raid.Slug == slug) = false := by
          simpa using h
        rw [hb]
        exact ih
  constructor
  · exact main r.Raids
  · rw [GetRaidBySlug, main r.Raids]
    rcases hfind : r.Raids.find? (fun raid => raid.Slug == slug) with _ | found
    · rw [hfind]
      rw [List.find?_eq_none] at hfind
      constructor
      · intro _ raid hmem hslug
        exact hfind raid hmem (by simpa using hslug)
      · intro _; rfl
    · rw [hfind]
      constructor
      · intro h; cases h
      · intro hall
        exfalso
        have hmem := List.mem_of_find?_eq_some hfind
        have hp := List.find?_some hfind
        exact hall found hmem (by simpa using hp)

/-- C7 witness: on a collection with a duplicated slug, lookup returns
the first matching raid; a missing slug yields `ErrInvalidRaid`. -/
theorem GetRaidBySlug_first_match_witness :
    (GetRaidBySlug raidsFixture "nerubar-palace"
      = Except.ok (raidsFixture.Raids.get ⟨0, by decide⟩))
    ∧ GetRaidBySlug raidsFixture "nonexistent"
      = Except.error RaiderioError.ErrInvalidRaid := by
  constructor
  · rw [(GetRaidBySlug_first_match raidsFixture "nerubar-palace").1]
    rfl
  · exact ((GetRaidBySlug_first_match raidsFixture "nonexistent").2).mpr
      (by decide)

/-- C2 counterexample: a boss-kill query whose `Region` pointer holds
the non-canonical slug "badregion" passes `validateGuildBossKillQuery`
(it returns no error), refuting the claim that no such query passes
validation. -/
theorem validateGuildBossKill_accepts_noncanonical_slug :
    validateGuildBossKillQuery badRegionQuery = none
    ∧ badRegionQuery.Region = some { Slug := "badregion" }
    ∧ "badregion" ∉ enumeratedRegionSlugs := by
  refine ⟨by decide, rfl, by decide⟩

/-- C2 amended: the validators enforce only that the `Region` pointer is
non-nil; every query a validator accepts has `Region ≠ none`, but a
non-nil `Region` carrying a slug outside the enumeration still passes
validation (its rejection comes later, from the upstream error
classifier). -/
theorem validators_accepted_imp_region_nonnil :
    (∀ q : GuildBossKillQuery,
      validateGuildBossKillQuery q = none → q.Region ≠ none)
    ∧ (∀ rq : RaidQuery,
      validateRaidRankingsQuery rq = none → rq.Region ≠ none)
    ∧ (∀ q : BossRankingsQuery,
      validateBossRankingsQuery q = none → q.Region ≠ none)
    ∧ (∀ q : HallOfFameQuery,
      validateHallOfFameQuery q = none → q.Region ≠ none)
    ∧ (∀ q : RaidProgressionQuery,
      validateRaidProgressionQuery q = none → q.Region ≠ none) := by
  refine ⟨?_, ?_, ?_, ?_, ?_⟩ <;> intro q h <;>
    [skip; skip; skip; skip; skip] <;>
    (first
      | (unfold validateGuildBossKillQuery at h; split_ifs at h <;> simp_all)
      | (unfold validateRaidRankingsQuery at h; split_ifs at h <;> simp_all)
      | (unfold validateBossRankingsQuery at h; split_ifs at h <;> simp_all)
      | (unfold validateHallOfFameQuery at h; split_ifs at h <;> simp_all)
      | (unfold validateRaidProgressionQuery at h; split_ifs at h <;> simp_all))

/-- C2 amended witness: the accepted boss-kill and rankings queries
indeed carry non-nil regions. -/
theorem validators_accepted_imp_region_nonnil_witness :
    validBossKillQuery.Region ≠ none ∧ validRankingsQuery.Region ≠ none := by
  exact ⟨validators_accepted_imp_region_nonnil.1 validBossKillQuery (by decide),
    validators_accepted_imp_region_nonnil.2.1 validRankingsQuery (by decide)⟩

/-- C3 counterexample: for a `GuildBossKillQuery` with both an empty
`GuildName` and a nil `Region`, validation returns the region error —
not the guild-name error the claim demands — because the code checks
`Region` first. -/
theorem emptyGuildName_nilRegion_returns_region_error :
    validateGuildBossKillQuery emptyGuildNilRegionQuery
      = some RaiderioError.ErrInvalidRegion
    ∧ RaiderioError.ErrInvalidRegion ≠ RaiderioError.ErrInvalidGuildName := by
  decide

/-- C3 amended: each validator applies its rules as an ordered table
with the first failing rule winning, but in the code's order —
`GuildBossKillQuery`: Region, Realm, GuildName, RaidSlug, BossSlug,
Difficulty; `RaidQuery`: Slug, Difficulty, Region, Limit, Page — so a
boss-kill query with an empty guild name and a nil region gets the
region error. -/
theorem validators_follow_code_order_rule_tables :
    (∀ q : GuildBossKillQuery,
      validateGuildBossKillQuery q = firstFailingRule guildBossKillRules q)
    ∧ (∀ rq : RaidQuery,
      validateRaidRankingsQuery rq = firstFailingRule raidRankingsRules rq)
    ∧ (∀ q : GuildBossKillQuery, q.GuildName = "" → q.Region = none →
      validateGuildBossKillQuery q = some RaiderioError.ErrInvalidRegion) := by
  refine ⟨?_, ?_, ?_⟩
  · intro q
    simp only [validateGuildBossKillQuery, firstFailingRule, guildBossKillRules,
      difficultyRuleFails, List.find?]
    split_ifs with h1 h2 h3 h4 h5 h6 <;> simp_all
  · intro rq
    simp only [validateRaidRankingsQuery, firstFailingRule, raidRankingsRules,
      difficultyRuleFails, List.find?]
    split_ifs with h1 h2 h3 h4 h5
    · simp_all
    · simp_all
    · simp_all
    · simp_all
    · rw [decide_eq_false (show ¬rq.Limit < 0 by omega), decide_eq_true h5]
      simp [h1, h2, h3]
    · rw [decide_eq_false (show ¬rq.Limit < 0 by omega),
        decide_eq_false (show ¬rq.Page < 0 by omega)]
      simp [h1, h2, h3]
  · intro q _ hregion
    simp [validateGuildBossKillQuery, hregion]

/-- C3 amended witness: the ordered-table reading at the concrete query
with empty guild name and nil region yields the region error. -/
theorem validators_follow_code_order_rule_tables_witness :
    validateGuildBossKillQuery emptyGuildNilRegionQuery
      = some RaiderioError.ErrInvalidRegion :=
  validators_follow_code_order_rule_tables.2.2 emptyGuildNilRegionQuery rfl rfl

/-- C4 counterexample: a `RaidQuery` with `Limit < 0` on which
`validateRaidRankingsQuery` does not return `ErrLimitOutOfBounds` — its
empty slug fails the earlier rule first. -/
theorem negativeLimit_masked_by_earlier_rule :
    emptySlugNegativeLimitQuery.Limit < 0
    ∧ validateRaidRankingsQuery emptySlugNegativeLimitQuery
        = some RaiderioError.ErrInvalidRaidName
    ∧ some RaiderioError.ErrInvalidRaidName
        ≠ some RaiderioError.ErrLimitOutOfBounds := by
  decide

/-- C4 amended: for every `RaidQuery` whose earlier-checked fields are
valid (non-empty slug, enumerated difficulty, non-nil region):
`Limit < 0` gives `ErrLimitOutOfBounds`; `Limit ≥ 0` and `Page < 0`
gives `ErrPageOutOfBounds`; with both non-negative, validation succeeds;
and the rankings URL carries a "limit" (resp. "page") parameter exactly
when the value is non-zero, zero being omitted as "unspecified". -/
theorem raidRankings_paging_bounds_and_url (rq : RaidQuery)
    (hs : ¬rq.Slug = "") (hd : raidDifficltyValid rq.Difficulty = true)
    (hr : ¬rq.Region = none) :
    (rq.Limit < 0 →
      validateRaidRankingsQuery rq = some RaiderioError.ErrLimitOutOfBounds)
    ∧ (0 ≤ rq.Limit → rq.Page < 0 →
      validateRaidRankingsQuery rq = some RaiderioError.ErrPageOutOfBounds)
    ∧ (0 ≤ rq.Limit → 0 ≤ rq.Page → validateRaidRankingsQuery rq = none)
    ∧ getQueryParam (buildRaidRankingsParams rq) "limit"
        = (if rq.Limit = 0 then none else some (toString rq.Limit))
    ∧ getQueryParam (buildRaidRankingsParams rq) "page"
        = (if rq.Page = 0 then none else some (toString rq.Page)) := by
  have hdc : ¬(rq.Difficulty = "" ∨ raidDifficltyValid rq.Difficulty = false) := by
    rintro (h | h)
    · rw [h] at hd
      exact absurd hd (by decide)
    · rw [h] at hd
      cases hd
  refine ⟨?_, ?_, ?_, ?_, ?_⟩
  · intro hl
    simp only [validateRaidRankingsQuery, if_neg hs, if_neg hdc, if_neg hr,
      if_pos hl]
  · intro hl hp
    simp only [validateRaidRankingsQuery, if_neg hs, if_neg hdc, if_neg hr,
      if_neg (show ¬rq.Limit < 0 by omega), if_pos hp]
  · intro hl hp
    simp only [validateRaidRankingsQuery, if_neg hs, if_neg hdc, if_neg hr,
      if_neg (show ¬rq.Limit < 0 by omega), if_neg (show ¬rq.Page < 0 by omega)]
  · by_cases hrealm : rq.Realm = "" <;> by_cases hlim : rq.Limit = 0 <;>
      simp [buildRaidRankingsParams, getQueryParam, hrealm, hlim]
  · by_cases hrealm : rq.Realm = "" <;> by_cases hlim : rq.Limit = 0 <;>
      by_cases hpage : rq.Page = 0 <;>
      simp [buildRaidRankingsParams, getQueryParam, hrealm, hlim, hpage]

/-- C4 amended witness: a valid query with zero limit and page validates
and omits both parameters; one with limit 40 and page 2 validates and
carries both. -/
theorem raidRankings_paging_bounds_and_url_witness :
    validateRaidRankingsQuery validRankingsQuery = none
    ∧ getQueryParam (buildRaidRankingsParams validRankingsQuery) "limit" = none
    ∧ getQueryParam (buildRaidRankingsParams validRankingsQuery) "page" = none
    ∧ validateRaidRankingsQuery pagedRankingsQuery = none
    ∧ getQueryParam (buildRaidRankingsParams pagedRankingsQuery) "limit"
        = some "40"
    ∧ getQueryParam (buildRaidRankingsParams pagedRankingsQuery) "page"
        = some "2" := by
  obtain ⟨-, -, hok, hlim, hpage⟩ :=
    raidRankings_paging_bounds_and_url validRankingsQuery
      (by decide) (by decide) (by decide)
  obtain ⟨-, -, hok2, hlim2, hpage2⟩ :=
    raidRankings_paging_bounds_and_url pagedRankingsQuery
      (by decide) (by decide) (by decide)
  exact ⟨hok (by decide) (by decide), by simpa using hlim, by simpa using hpage,
    hok2 (by decide) (by decide), by simpa using hlim2, by simpa using hpage2⟩

/-- C5 counterexample: the query carrying the invalid difficulty
"invalid-difficulty" is not rejected with `ErrInvalidRaidDiff` by
`validateRaidRankingsQuery` — its empty slug fails first — refuting the
claim for every validator and every query carrying an invalid
difficulty. -/
theorem invalidDifficulty_masked_by_earlier_rule :
    raidDifficltyValid emptySlugBadDifficultyQuery.Difficulty = false
    ∧ validateRaidRankingsQuery emptySlugBadDifficultyQuery
        = some RaiderioError.ErrInvalidRaidName
    ∧ some RaiderioError.ErrInvalidRaidName
        ≠ some RaiderioError.ErrInvalidRaidDiff := by
  decide

/-- C5 amended: the three enumerated difficulties pass the difficulty
rule; for every difficulty outside them (the empty string included),
each of the five difficulty-requiring validators rejects a query
carrying it with `ErrInvalidRaidDiff` provided the fields its earlier
rules check are valid — and in every case such a query never validates
successfully, so no request is ever built for it. -/
theorem invalid_difficulty_always_rejected :
    (raidDifficltyValid NORMAL_RAID = true
      ∧ raidDifficltyValid HEROIC_RAID = true
      ∧ raidDifficltyValid MYTHIC_RAID = true)
    ∧ ∀ d : RaidDifficulty, raidDifficltyValid d = false →
      (∀ rq : RaidQuery, rq.Difficulty = d → ¬rq.Slug = "" →
        validateRaidRankingsQuery rq = some RaiderioError.ErrInvalidRaidDiff)
      ∧ (∀ rq : RaidQuery, rq.Difficulty = d →
        validateRaidRankingsQuery rq ≠ none)
      ∧ (∀ q : GuildBossKillQuery, q.Difficulty = d → ¬q.Region = none →
        ¬q.Realm = "" → ¬q.GuildName = "" → ¬q.RaidSlug = "" →
        ¬q.BossSlug = "" →
        validateGuildBossKillQuery q = some RaiderioError.ErrInvalidRaidDiff)
      ∧ (∀ q : GuildBossKillQuery, q.Difficulty = d →
        validateGuildBossKillQuery q ≠ none)
      ∧ (∀ q : BossRankingsQuery, q.Difficulty = d → ¬q.RaidSlug = "" →
        ¬q.BossSlug = "" →
        validateBossRankingsQuery q = some RaiderioError.ErrInvalidRaidDiff)
      ∧ (∀ q : BossRankingsQuery, q.Difficulty = d →
        validateBossRankingsQuery q ≠ none)
      ∧ (∀ q : HallOfFameQuery, q.Difficulty = d → ¬q.RaidSlug = "" →
        validateHallOfFameQuery q = some RaiderioError.ErrInvalidRaidDiff)
      ∧ (∀ q : HallOfFameQuery, q.Difficulty = d →
        validateHallOfFameQuery q ≠ none)
      ∧ (∀ q : RaidProgressionQuery, q.Difficulty = d → ¬q.RaidSlug = "" →
        validateRaidProgressionQuery q = some RaiderioError.ErrInvalidRaidDiff)
      ∧ (∀ q : RaidProgressionQuery, q.Difficulty = d →
        validateRaidProgressionQuery q ≠ none) := by
  refine ⟨by decide, ?_⟩
  intro d hd
  refine ⟨?_, ?_, ?_, ?_, ?_, ?_, ?_, ?_, ?_, ?_⟩ <;> intro q hq <;>
    [skip; skip; skip; skip; skip; skip; skip; skip; skip; skip] <;>
    (first
      | (intros
         unfold validateRaidRankingsQuery
         split_ifs <;> simp_all)
      | (intros
         unfold validateGuildBossKillQuery
         split_ifs <;> simp_all)
      | (intros
         unfold validateBossRankingsQuery
         split_ifs <;> simp_all)
      | (intros
         unfold validateHallOfFameQuery
         split_ifs <;> simp_all)
      | (intros
         unfold validateRaidProgressionQuery
         split_ifs <;> simp_all))

/-- C5 amended witness: each of the five validators rejects its
otherwise-valid query carrying a concrete invalid difficulty with
`ErrInvalidRaidDiff`, and the mythic difficulty passes the rule. -/
theorem invalid_difficulty_always_rejected_witness :
    validateRaidRankingsQuery badDifficultyRankingsQuery
      = some RaiderioError.ErrInvalidRaidDiff
    ∧ validateGuildBossKillQuery badDifficultyBossKillQuery
      = some RaiderioError.ErrInvalidRaidDiff
    ∧ validateBossRankingsQuery badDifficultyBossRankingsQuery
      = some RaiderioError.ErrInvalidRaidDiff
    ∧ validateHallOfFameQuery badDifficultyHofQuery
      = some RaiderioError.ErrInvalidRaidDiff
    ∧ validateRaidProgressionQuery badDifficultyProgressionQuery
      = some RaiderioError.ErrInvalidRaidDiff
    ∧ raidDifficltyValid MYTHIC_RAID = true := by
  obtain ⟨hrk, -, -, -, -, -, -, -, -, -⟩ :=
    invalid_difficulty_always_rejected.2 "invalid-difficulty" (by decide)
  obtain ⟨-, -, hgbk, -, -, -, -, -, -, -⟩ :=
    invalid_difficulty_always_rejected.2 "" (by decide)
  obtain ⟨-, -, -, -, hbr, -, -, -, -, -⟩ :=
    invalid_difficulty_always_rejected.2 "LFR" (by decide)
  obtain ⟨-, -, -, -, -, -, hhof, -, -, -⟩ :=
    invalid_difficulty_always_rejected.2 "heroic25" (by decide)
  obtain ⟨-, -, -, -, -, -, -, -, hprog, -⟩ :=
    invalid_difficulty_always_rejected.2 "Mythic" (by decide)
  exact ⟨hrk badDifficultyRankingsQuery rfl (by decide),
    hgbk badDifficultyBossKillQuery rfl (by decide) (by decide) (by decide)
      (by decide) (by decide),
    hbr badDifficultyBossRankingsQuery rfl (by decide) (by decide),
    hhof badDifficultyHofQuery rfl (by decide),
    hprog badDifficultyProgressionQuery rfl (by decide),
    invalid_difficulty_always_rejected.1.2.2⟩

/-- Setting a key leaves the lookup of every other key unchanged. -/
theorem getQueryParam_setQueryParam_of_ne (ps : List (String × String))
    (ak v k : String) (hk : ¬k = ak) :
    getQueryParam (setQueryParam ps ak v) k = getQueryParam ps k := by
  induction ps with
  | nil =>
    simp only [setQueryParam, getQueryParam, List.filter_nil, List.nil_append]
    rw [List.find?_cons_of_neg _ (by simpa using fun h : ak = k => hk h.symm)]
  | cons p rest ih =>
    simp only [setQueryParam, List.filter_cons] at ih ⊢
    by_cases hp : p.1 = ak
    · rw [if_neg (by simpa using hp)]
      rw [ih]
      have hkp : ¬p.1 = k := by
        rw [hp]
        exact fun h => hk h.symm
      simp only [getQueryParam]
      rw [List.find?_cons_of_neg _ (by simpa using hkp)]
    · rw [if_pos (by simpa using hp)]
      by_cases hkp : p.1 = k
      · simp only [getQueryParam, List.cons_append]
        rw [List.find?_cons_of_pos _ (by simpa using hkp),
          List.find?_cons_of_pos _ (by simpa using hkp)]
      · simp only [getQueryParam, List.cons_append] at ih ⊢
        rw [List.find?_cons_of_neg _ (by simpa using hkp),
          List.find?_cons_of_neg _ (by simpa using hkp)]
        exact ih

/-- Setting a key makes lookup of that key return the new value. -/
theorem getQueryParam_setQueryParam_self (ps : List (String × String))
    (ak v : String) :
    getQueryParam (setQueryParam ps ak v) ak = some v := by
  induction ps with
  | nil =>
    simp only [setQueryParam, getQueryParam, List.filter_nil, List.nil_append]
    rw [List.find?_cons_of_pos _ (by simp)]
    rfl
  | cons p rest ih =>
    simp only [setQueryParam, List.filter_cons] at ih ⊢
    by_cases hp : p.1 = ak
    · rw [if_neg (by simpa using hp)]
      exact ih
    · rw [if_pos (by simpa using hp)]
      simp only [getQueryParam, List.cons_append] at ih ⊢
      rw [List.find?_cons_of_neg _ (by simpa using hp)]
      exact ih

/-- C8: when the client's `AccessKey` is non-empty, the URL actually
sent keeps the built URL's pre-query part, carries `access_key` equal to
the configured key, and preserves every other query parameter with its
value unchanged (the merge mutates the parsed URL's query values, so the
single-"?" structure is preserved by construction); when the key is
empty, the sent URL is exactly the built URL. -/
theorem applyAccessKey_merges_key (accessKey : String) (u : UrlModel) :
    (accessKey = "" → applyAccessKey accessKey u = u)
    ∧ (¬accessKey = "" →
      (applyAccessKey accessKey u).Path = u.Path
      ∧ getQueryParam (applyAccessKey accessKey u).Query "access_key"
          = some accessKey
      ∧ ∀ k, ¬k = "access_key" →
        getQueryParam (applyAccessKey accessKey u).Query k
          = getQueryParam u.Query k) := by
  constructor
  · intro h
    simp [applyAccessKey, h]
  · intro h
    refine ⟨by simp [applyAccessKey, h], ?_, ?_⟩
    · simp only [applyAccessKey, if_neg h]
      exact getQueryParam_setQueryParam_self u.Query "access_key" accessKey
    · intro k hk
      simp only [applyAccessKey, if_neg h]
      exact getQueryParam_setQueryParam_of_ne u.Query "access_key" accessKey k hk

/-- C8 witness: on the built character-profile URL, the key "test_key"
is merged in while `region`, `realm` and `name` keep their values, and
an empty key leaves the URL untouched. -/
theorem applyAccessKey_merges_key_witness :
    getQueryParam (applyAccessKey "test_key" characterProfileUrl).Query
      "access_key" = some "test_key"
    ∧ (applyAccessKey "test_key" characterProfileUrl).Path
        = characterProfileUrl.Path
    ∧ getQueryParam (applyAccessKey "test_key" characterProfileUrl).Query
        "region" = some "us"
    ∧ getQueryParam (applyAccessKey "test_key" characterProfileUrl).Query
        "realm" = some "illidan"
    ∧ applyAccessKey "" characterProfileUrl = characterProfileUrl := by
  obtain ⟨hempty, hfull⟩ := applyAccessKey_merges_key "test_key" characterProfileUrl
  obtain ⟨hpath, hset, hkeep⟩ := hfull (by decide)
  refine ⟨hset, hpath, ?_, ?_,
    (applyAccessKey_merges_key "" characterProfileUrl).1 rfl⟩
  · rw [hkeep "region" (by decide)]
    rfl
  · rw [hkeep "realm" (by decide)]
    rfl

/-- C9: guild raid-ranking lookup has three pairwise distinguishable
outcomes — a guild decoded without raid-rankings requested gives the
field-missing error; a present mapping lacking the slug gives the
distinct not-ranked-for-that-raid error; a present mapping containing
the slug gives that entry. -/
theorem GetGuildRaidRankBySlug_three_outcomes (g : Guild) (slug : String) :
    (g.RaidRankings = none →
      GetGuildRaidRankBySlug g slug = .error RaiderioError.ErrFieldMissing)
    ∧ (∀ table, g.RaidRankings = some table →
      (∀ entry, table.find? (fun p => p.1 = slug) = some entry →
        GetGuildRaidRankBySlug g slug = .ok entry.2)
      ∧ (table.find? (fun p => p.1 = slug) = none →
        GetGuildRaidRankBySlug g slug = .error RaiderioError.ErrInvalidRaid))
    ∧ RaiderioError.ErrFieldMissing ≠ RaiderioError.ErrInvalidRaid := by
  refine ⟨?_, ?_, by decide⟩
  · intro h
    simp [GetGuildRaidRankBySlug, h]
  · intro table h
    constructor
    · intro entry hfind
      simp [GetGuildRaidRankBySlug, h, hfind]
    · intro hfind
      simp [GetGuildRaidRankBySlug, h, hfind]

/-- C9 witness: on the guild whose mapping holds "nerubar-palace" with
Mythic.World = 92, lookup returns that entry; a slug outside the mapping
gives `ErrInvalidRaid`; the guild decoded without rankings gives
`ErrFieldMissing`. -/
theorem GetGuildRaidRankBySlug_three_outcomes_witness :
    GetGuildRaidRankBySlug guildWithRankings "nerubar-palace"
      = .ok nerubarRanking
    ∧ nerubarRanking.Mythic.World = 92
    ∧ GetGuildRaidRankBySlug guildWithRankings "absent-raid"
      = .error RaiderioError.ErrInvalidRaid
    ∧ GetGuildRaidRankBySlug guildWithoutRankings "nerubar-palace"
      = .error RaiderioError.ErrFieldMissing := by
  obtain ⟨-, htab, -⟩ :=
    GetGuildRaidRankBySlug_three_outcomes guildWithRankings "nerubar-palace"
  obtain ⟨-, htab2, -⟩ :=
    GetGuildRaidRankBySlug_three_outcomes guildWithRankings "absent-raid"
  obtain ⟨hnone, -, -⟩ :=
    GetGuildRaidRankBySlug_three_outcomes guildWithoutRankings "nerubar-palace"
  refine ⟨(htab _ rfl).1 ("nerubar-palace", nerubarRanking) (by decide), rfl,
    (htab2 _ rfl).2 (by decide), hnone rfl⟩

/-- C10: `GetRaids` performs no client-side validation of its expansion
argument — for every integer, the unconditional builder produces a URL
carrying `expansion_id` (there is no pre-network error path) — and the
unsupported-expansion error arises exactly from classifying an upstream
message that contains "Requested unsupported expansion_id" and none of
the earlier patterns of the table. -/
theorem GetRaids_no_expansion_validation :
    (∀ e : Int, getQueryParam (buildRaidsParams e) "expansion_id"
      = some (toString e))
    ∧ (∀ r : apiErrorResponse,
      wrapAPIError r = RaiderioError.ErrUnsupportedExpac ↔
        (stringContains r.Message "Requested unsupported expansion_id" = true
         ∧ stringContains r.Message "Failed to find region" = false
         ∧ stringContains r.Message "Failed to find realm" = false
         ∧ stringContains r.Message "Could not find requested character" = false
         ∧ stringContains r.Message "Could not find requested guild" = false))
    ∧ buildRaidsParams 2 = [("expansion_id", "2")]
    ∧ wrapAPIError ⟨400, "Bad Request", "Requested unsupported expansion_id 2"⟩
        = RaiderioError.ErrUnsupportedExpac := by
  refine ⟨?_, ?_, by decide, by decide⟩
  · intro e
    simp [buildRaidsParams, getQueryParam]
  · intro r
    unfold wrapAPIError
    split_ifs with h1 h2 h3 h4 h5 h6 <;> simp_all

/-- C10 witness: a negative expansion id still yields an
`expansion_id` parameter, and the zero envelope never classifies as the
unsupported-expansion error. -/
theorem GetRaids_no_expansion_validation_witness :
    getQueryParam (buildRaidsParams (-5)) "expansion_id" = some "-5"
    ∧ wrapAPIError ⟨400, "Bad Request", "Requested unsupported expansion_id 2"⟩
        = RaiderioError.ErrUnsupportedExpac := by
  exact ⟨by simpa using GetRaids_no_expansion_validation.1 (-5),
    GetRaids_no_expansion_validation.2.2.2⟩

end Raiderio

